import Mathlib

/-!
Shallow embedding of the fragment-merge engine, step coordinator, toolset
dispatch and wire envelope codec of the kimi-cli repository
(packages/kosong/src/kosong and src/kimi_cli), with theorems settling the
spec claims about them.
-/

namespace KimiSpec

/-! ## A model of Python JSON-able values

`JsonType` (kosong/utils/typing.py) is the recursive union of `None`,
`bool`, numbers, `str`, lists and string-keyed dicts. Numbers are
modelled as exact rationals: no arithmetic is ever performed on them by
the code under study, they are only carried through. The mutual `Json` /
`JsonList` / `JsonEntries` presentation keeps every instance derivable;
`JsonEntries` is an insertion-ordered string-keyed dict. -/

mutual
inductive Json
  | null
  | bool (b : Bool)
  | num (q : ℚ)
  | str (s : String)
  | arr (xs : JsonList)
  | obj (kvs : JsonEntries)
deriving DecidableEq
inductive JsonList
  | nil
  | cons (hd : Json) (tl : JsonList)
deriving DecidableEq
inductive JsonEntries
  | nil
  | cons (k : String) (v : Json) (tl : JsonEntries)
deriving DecidableEq
end

/-- Build a `JsonEntries` dict from a literal key/value list. -/
def entriesOf : List (String × Json) → JsonEntries
  | [] => .nil
  | (k, v) :: rest => .cons k v (entriesOf rest)

/-- Build a `JsonList` from a literal list. -/
def listOf : List Json → JsonList
  | [] => .nil
  | j :: rest => .cons j (listOf rest)

/-- Back to a Lean list, for `mapM`-style decoding of JSON arrays. -/
def JsonList.toList : JsonList → List Json
  | .nil => []
  | .cons j rest => j :: rest.toList

mutual
/-- Structural size, the termination measure for the envelope decoder. -/
def Json.size : Json → Nat
  | .null | .bool _ | .num _ | .str _ => 1
  | .arr xs => 1 + xs.size
  | .obj kvs => 1 + kvs.size
def JsonList.size : JsonList → Nat
  | .nil => 0
  | .cons hd tl => hd.size + tl.size
def JsonEntries.size : JsonEntries → Nat
  | .nil => 0
  | .cons _ v tl => v.size + tl.size
end

/-- Dict lookup (`d.get(k)` / `d[k]`): first entry with the key wins. -/
def JsonEntries.get : JsonEntries → String → Option Json
  | .nil, _ => none
  | .cons k' v rest, k => if k' = k then some v else rest.get k

/-! ## kosong.message — content parts, tool calls, messages -/

/-- Python truthiness of an `str | None` value: `None` and `""` are falsy. -/
def pyTruthy : Option String → Bool
  | none => false
  | some s => s ≠ ""

/-- `TextPart` (kosong/message.py): `{type: "text", text}`. -/
structure TextPart where
  text : String
deriving DecidableEq

/-- `ThinkPart` (kosong/message.py): `{type: "think", think, encrypted}`. -/
structure ThinkPart where
  think : String
  encrypted : Option String
deriving DecidableEq

/-- `ImageURLPart.ImageURL` payload: url plus optional id. -/
structure ImageURL where
  url : String
  id : Option String
deriving DecidableEq

/-- `ImageURLPart` (kosong/message.py). -/
structure ImageURLPart where
  image_url : ImageURL
deriving DecidableEq

/-- `AudioURLPart.AudioURL` payload. -/
structure AudioURL where
  url : String
  id : Option String
deriving DecidableEq

/-- `AudioURLPart` (kosong/message.py). -/
structure AudioURLPart where
  audio_url : AudioURL
deriving DecidableEq

/-- `VideoURLPart.VideoURL` payload. -/
structure VideoURL where
  url : String
  id : Option String
deriving DecidableEq

/-- `VideoURLPart` (kosong/message.py). -/
structure VideoURLPart where
  video_url : VideoURL
deriving DecidableEq

/-- The closed set of `ContentPart` subclasses registered in
`ContentPart.__content_part_registry` (kosong/message.py). -/
inductive ContentPart
  | text (p : TextPart)
  | think (p : ThinkPart)
  | imageURL (p : ImageURLPart)
  | audioURL (p : AudioURLPart)
  | videoURL (p : VideoURLPart)
deriving DecidableEq

/-- `ToolCall.FunctionBody` (kosong/message.py): name plus accumulated
argument string (`arguments: str | None`). -/
structure FunctionBody where
  name : String
  arguments : Option String
deriving DecidableEq

/-- `ToolCall` (kosong/message.py). The `type` field is always the
literal `"function"` and is left implicit; `extras` is opaque JSON
metadata, untouched by `merge_in_place`. -/
structure ToolCall where
  id : String
  function : FunctionBody
  extras : Option JsonEntries := none
deriving DecidableEq

/-- `ToolCallPart` (kosong/message.py): an id-less tool-call argument
delta. -/
structure ToolCallPart where
  arguments_part : Option String
deriving DecidableEq

/-- The streamed-part union consumed by the merge loop.
Modelled from the spec: `StreamedMessagePart` lives in
`kosong.chat_provider`, which is not under src/; per the spec's Fragment
data model and the uses in `_generate.py` it is the union of a content
part, a tool call carrying its id, and an id-less tool-call argument
delta. -/
inductive StreamedMessagePart
  | content (c : ContentPart)
  | toolCall (tc : ToolCall)
  | toolCallPart (p : ToolCallPart)
deriving DecidableEq

/-- Python `a + (b or "")` on optional strings, as used by the tool-call
merge rules: when the accumulator is `None` it is replaced by the incoming
delta, otherwise the delta (or `""` for `None`) is appended. -/
def optArgConcat : Option String → Option String → Option String
  | none, o => o
  | some s, o => some (s ++ o.getD "")

/-- `merge_in_place` (kosong/message.py), over the streamed-part union.
Python mutates the receiver and returns a bool; here `none` models a
`False` return (no merge) and `some p` models a `True` return with `p` the
mutated receiver.
* `TextPart`: accepts only another text part, concatenating text.
* `ThinkPart`: accepts only another think part, and only while
  `self.encrypted` is falsy (`None` or `""`); concatenates think text and
  overwrites `encrypted` when the incoming one is truthy.
* media parts: inherit `MergeableMixin.merge_in_place`, always `False`.
* `ToolCall`: accepts only a `ToolCallPart`, concatenating the argument
  delta onto the accumulated argument string.
* `ToolCallPart`: accepts only another `ToolCallPart`, concatenating. -/
def mergeInPlace : StreamedMessagePart → StreamedMessagePart → Option StreamedMessagePart
  | .content (.text p), .content (.text q) => some (.content (.text ⟨p.text ++ q.text⟩))
  | .content (.think p), .content (.think q) =>
    if pyTruthy p.encrypted then none
    else some (.content (.think ⟨p.think ++ q.think,
      if pyTruthy q.encrypted then q.encrypted else p.encrypted⟩))
  | .toolCall tc, .toolCallPart p =>
    some (.toolCall ⟨tc.id,
      ⟨tc.function.name, optArgConcat tc.function.arguments p.arguments_part⟩, tc.extras⟩)
  | .toolCallPart p, .toolCallPart q =>
    some (.toolCallPart ⟨optArgConcat p.arguments_part q.arguments_part⟩)
  | _, _ => none

/-- The slice of `Message` (kosong/message.py) produced by the merge loop:
`generate` builds `Message(role="assistant", content=[])` and only ever
appends to `content` and `tool_calls`; `tool_calls` starts as `None` and
becomes a list on the first appended tool call. -/
structure Message where
  content : List ContentPart
  tool_calls : Option (List ToolCall)
deriving DecidableEq

/-- `_message_append` (kosong/_generate.py): a content part is appended to
`message.content`; a tool call is appended to `message.tool_calls`
(created as `[]` first when still `None`); anything else — an orphaned
`ToolCallPart` — is silently dropped. -/
def messageAppend (m : Message) : StreamedMessagePart → Message
  | .content c => { m with content := m.content ++ [c] }
  | .toolCall tc => { m with tool_calls := some ((m.tool_calls.getD []) ++ [tc]) }
  | .toolCallPart _ => m

/-! ## kosong._generate — the merge loop -/

/-- The mutable state of `generate`'s merge loop (kosong/_generate.py):
the message under construction, the single pending (non-final) part, and —
recording the `on_tool_call` callback invocations, which fire at the
instant a completed tool call is finalized — the ordered list of finalized
tool calls. -/
structure MergeState where
  message : Message
  pending : Option StreamedMessagePart
  finalizedToolCalls : List ToolCall
deriving DecidableEq

/-- The initial state of one `generate` call:
`Message(role="assistant", content=[])`, no pending part, no callback
fired yet. -/
def MergeState.init : MergeState :=
  { message := { content := [], tool_calls := none }, pending := none, finalizedToolCalls := [] }

/-- Finalize a pending part: append it to the message, and when it is a
completed `ToolCall` record the `on_tool_call` callback firing. -/
def finalizePending (st : MergeState) (p : StreamedMessagePart) : MergeState :=
  { st with
    message := messageAppend st.message p
    finalizedToolCalls :=
      match p with
      | .toolCall tc => st.finalizedToolCalls ++ [tc]
      | _ => st.finalizedToolCalls }

/-- One iteration of `generate`'s `async for part in stream` body: a first
part becomes pending; otherwise try `merge_in_place` against the pending
part, and on failure finalize the pending part and make the incoming part
the new pending one. -/
def consumePart (st : MergeState) (part : StreamedMessagePart) : MergeState :=
  match st.pending with
  | none => { st with pending := some part }
  | some p =>
    match mergeInPlace p part with
    | some merged => { st with pending := some merged }
    | none => { finalizePending st p with pending := some part }

/-- Run the merge loop over a whole (successfully exhausted) stream and
perform the final flush of the pending part. -/
def mergeStream (parts : List StreamedMessagePart) : MergeState :=
  let st := parts.foldl consumePart MergeState.init
  match st.pending with
  | none => st
  | some p => { finalizePending st p with pending := none }

/-- The errors `generate` can raise.
`APIEmptyResponseError` lives in `kosong.chat_provider`, which is not
under src/; it is modelled from the spec as the `EmptyResponse` taxonomy
error. -/
inductive GenerateError
  | emptyResponse
deriving DecidableEq

/-- Modelled from the spec: `TokenUsage` (kosong.chat_provider, not under
src/) is the token-usage value a provider stream exposes once exhausted;
the field layout (input/output token counts) is a model — the code under
study never inspects it, only carries it. -/
structure TokenUsage where
  input : Nat
  output : Nat
deriving DecidableEq

/-- `GenerateResult` (kosong/_generate.py): stream id, finalized message,
token usage. -/
structure GenerateResult where
  id : Option String
  message : Message
  usage : Option TokenUsage
deriving DecidableEq

/-- `generate` (kosong/_generate.py), as a function of the already-arrived
part list of a successfully exhausted stream: merge every part, flush the
pending part, then raise `EmptyResponse` iff
`not message.content and not message.tool_calls` — i.e. the content list
is empty and the tool-call list is `None` or empty. -/
def generate (id : Option String) (usage : Option TokenUsage) (parts : List StreamedMessagePart) :
    Except GenerateError GenerateResult :=
  let message := (mergeStream parts).message
  if message.content = [] ∧ (message.tool_calls = none ∨ message.tool_calls = some []) then
    .error .emptyResponse
  else
    .ok { id := id, message := message, usage := usage }

/-! ## kosong.tooling — spec-modelled tool result types -/

/-- Modelled from the spec: the `ToolReturnValue` / `ToolOutcome` variants
of `kosong.tooling` (not under src/): Ok{output}, NotFound, ParseError,
RuntimeError, Rejected, Timeout. `notFound` carries the unknown tool name
(`ToolNotFoundError(tool_call.function.name)`), `parseError` and
`runtimeError` carry `str(e)` of the originating Python exception. -/
inductive ToolReturnValue
  | ok (output : String)
  | notFound (name : String)
  | parseError (msg : String)
  | runtimeError (msg : String)
  | rejected
  | timeout
deriving DecidableEq

/-- Modelled from the spec: `ToolResult`{tool_call_id, outcome}
(`kosong.tooling` is not under src/). -/
structure ToolResult where
  tool_call_id : String
  return_value : ToolReturnValue
deriving DecidableEq

/-- The result of `Toolset.handle` (`HandleResult`, kosong.tooling, not
under src/), modelled from the spec: either an immediate `ToolResult`
(e.g. NotFound, ParseError) or an independently running asynchronous
execution, abstracted by the `ToolResult` it eventually produces when
allowed to finish. -/
inductive HandleResult
  | immediate (r : ToolResult)
  | task (r : ToolResult)
deriving DecidableEq

/-- The result a dispatched handle resolves to when its execution runs to
completion. -/
def HandleResult.eventualResult : HandleResult → ToolResult
  | .immediate r => r
  | .task r => r

/-! ## kosong.step — the step coordinator

`ToolResultFuture` is repository code not under src/ (`kosong.tooling`);
the handle model below is modelled from the spec: a `ResultHandle` is
created at dispatch either already resolved (the immediate-`ToolResult`
branch of `step.on_tool_call` builds a future and calls `set_result` at
once) or as a running task; `completesAt` abstracts the cooperative
schedule — the virtual time at which the concurrent execution finishes.
Awaiting a handle suspends until it resolves and yields its result;
cancelling an already-resolved handle is a no-op, cancelling a still
running one terminates it cancelled. -/

/-- A dispatched tool-result future. -/
inductive ResultHandle
  | resolvedNow (r : ToolResult)
  | running (r : ToolResult) (completesAt : Nat)
deriving DecidableEq

/-- `await future` on a handle whose execution is allowed to finish. -/
def ResultHandle.awaitResult : ResultHandle → ToolResult
  | .resolvedNow r => r
  | .running r _ => r

/-- Terminal state of a handle after `future.cancel()` at virtual time
`cancelAt` followed by a drain (`asyncio.gather(...,
return_exceptions=True)`): an already-resolved future is untouched, a task
that had already finished stays resolved, an unfinished one ends
cancelled; drain errors are suppressed. -/
inductive HandleFinal
  | resolved (r : ToolResult)
  | cancelled
deriving DecidableEq

/-- Outcome of cancelling one handle at time `cancelAt`. -/
def ResultHandle.finalAfterCancel : ResultHandle → Nat → HandleFinal
  | .resolvedNow r, _ => .resolved r
  | .running r completesAt, cancelAt =>
    if completesAt ≤ cancelAt then .resolved r else .cancelled

/-- Generic insertion-ordered dict lookup, for
`tool_result_futures: dict[str, ToolResultFuture]` and
`_tool_dict: dict[str, ToolType]`. -/
def dictGet {α : Type} : List (String × α) → String → Option α
  | [], _ => none
  | (k', v) :: rest, k => if k' = k then some v else dictGet rest k

/-- Python dict assignment `d[k] = v`: overwrite in place when the key
exists, append otherwise. -/
def dictSet {α : Type} (d : List (String × α)) (k : String) (v : α) : List (String × α) :=
  if (dictGet d k).isSome then d.map (fun kv => if kv.1 = k then (k, v) else kv)
  else d ++ [(k, v)]

/-- The handle `step.on_tool_call` stores for one finalized tool call
(kosong/__init__.py): an immediate `ToolResult` from `toolset.handle`
becomes a future resolved on the spot, a returned task becomes a running
handle whose completion time the ambient schedule `sched` assigns. -/
def dispatchHandle (handleOf : ToolCall → HandleResult) (sched : String → Nat)
    (tc : ToolCall) : ResultHandle :=
  match handleOf tc with
  | .immediate r => .resolvedNow r
  | .task r => .running r (sched tc.id)

/-- One `on_tool_call` callback invocation (kosong/__init__.py): append
the finalized call to `tool_calls` and store its dispatched handle in
`tool_result_futures[tool_call.id]`. -/
def onToolCall (handleOf : ToolCall → HandleResult) (sched : String → Nat)
    (st : List ToolCall × List (String × ResultHandle)) (tc : ToolCall) :
    List ToolCall × List (String × ResultHandle) :=
  (st.1 ++ [tc], dictSet st.2 tc.id (dispatchHandle handleOf sched tc))

/-- The exceptions `step`'s `except (ChatProviderError,
asyncio.CancelledError)` clause catches: a provider stream failure or a
cancellation of the step. -/
inductive StepFailure
  | chatProviderError (msg : String)
  | cancelledError
deriving DecidableEq

/-- One provider stream as `step` observes it: either it is exhausted
successfully after yielding `parts`, or it raises `e` after yielding
`partsSeen` (in which case the merge loop's pending part is never flushed
and the trailing usage value is unavailable). -/
inductive StreamOutcome
  | success (id : Option String) (usage : Option TokenUsage) (parts : List StreamedMessagePart)
  | failure (partsSeen : List StreamedMessagePart) (e : StepFailure)
deriving DecidableEq

/-- What escapes a failed `step`: `EmptyResponse` propagating out of
`generate`, or the original stream failure re-raised by the `except`
clause — the latter paired with the terminal state in which the clause's
cleanup (`future.cancel()` on every created future, then
`asyncio.gather(..., return_exceptions=True)`) leaves each created
handle, exposing the drain for verification. -/
inductive StepError
  | emptyResponse
  | failedAfterDrain (e : StepFailure) (drained : List (String × HandleFinal))
deriving DecidableEq

/-- `StepResult` (kosong/__init__.py). -/
structure StepResult where
  id : Option String
  message : Message
  usage : Option TokenUsage
  tool_calls : List ToolCall
  tool_result_futures : List (String × ResultHandle)
deriving DecidableEq

/-- `step` (kosong/__init__.py) over one observed stream outcome. On
success, `generate` finalizes the message and fires `on_tool_call` for
every finalized tool call in emission order, each dispatching through the
toolset; the resulting `StepResult` carries the ordered call list and the
handle dict. On stream failure, exactly the calls finalized before the
failure were dispatched; every created future is cancelled at time
`cancelAt` and drained with errors suppressed, then the original failure
is re-raised. -/
def runStep (handleOf : ToolCall → HandleResult) (sched : String → Nat) (cancelAt : Nat)
    (outcome : StreamOutcome) : Except StepError StepResult :=
  match outcome with
  | .success id usage parts =>
    match generate id usage parts with
    | .error .emptyResponse => .error .emptyResponse
    | .ok res =>
      let d := (mergeStream parts).finalizedToolCalls.foldl (onToolCall handleOf sched) ([], [])
      .ok ⟨res.id, res.message, res.usage, d.1, d.2⟩
  | .failure partsSeen e =>
    let st := partsSeen.foldl consumePart MergeState.init
    let d := st.finalizedToolCalls.foldl (onToolCall handleOf sched) ([], [])
    .error (.failedAfterDrain e (d.2.map (fun kv => (kv.1, kv.2.finalAfterCancel cancelAt))))

/-- `StepResult.tool_results` (kosong/__init__.py): an empty future dict
short-circuits to `[]`; otherwise each handle is awaited in the original
`tool_calls` order (a missing dict key would raise `KeyError`, modelled as
`none`) and the results are returned in that same order. The `finally`
cleanup — cancel and drain every still-outstanding future — does not touch
the returned list and leaves already-resolved handles untouched. -/
def StepResult.tool_results (sr : StepResult) : Option (List ToolResult) :=
  if sr.tool_result_futures = [] then some []
  else sr.tool_calls.mapM (fun tc =>
    (dictGet sr.tool_result_futures tc.id).map ResultHandle.awaitResult)

/-! ## kimi_cli.soul.toolset — KimiToolset.handle -/

/-- A raised Python `Exception` as the dispatch boundary sees it: only its
`str(e)` rendering is used. (`asyncio.CancelledError` derives from
`BaseException`, not `Exception`, so it is not part of this type.) -/
structure PyExc where
  msg : String
deriving DecidableEq

/-- One registered tool as `KimiToolset.handle` uses it: `tool.call`
receives the parsed JSON arguments and either returns a `ToolReturnValue`
or raises. -/
structure ToolImpl where
  run : Json → Except PyExc ToolReturnValue

/-- `KimiToolset` (kimi_cli/soul/toolset.py): the `_tool_dict`
name-to-tool mapping. (MCP loading and the `current_tool_call` context
variable, which `handle` sets around dispatch and resets in `finally`,
do not affect the returned result and are outside this model.) -/
structure KimiToolset where
  tool_dict : List (String × ToolImpl)

/-- Python `tool_call.function.arguments or "{}"`: `None` and the empty
string are falsy and replaced by `"{}"`. -/
def argsOrEmptyObj : Option String → String
  | none => "{}"
  | some s => if s = "" then "{}" else s

/-- `KimiToolset.handle` (kimi_cli/soul/toolset.py). `jsonParse` is the
external `json.loads` (Python stdlib), an arbitrary parser returning
either a JSON value or the `str(e)` of a `json.JSONDecodeError`:
* an unregistered tool name yields an immediate NotFound `ToolResult`;
* a failing parse of the accumulated argument string yields an immediate
  ParseError `ToolResult`;
* otherwise an `asyncio` task is created whose body awaits the tool and
  catches every `Exception`, converting it to a RuntimeError `ToolResult`,
  so the task's eventual result is a `ToolResult` in every case. -/
def KimiToolset.handle (jsonParse : String → Except String Json) (ts : KimiToolset)
    (tool_call : ToolCall) : HandleResult :=
  match dictGet ts.tool_dict tool_call.function.name with
  | none => .immediate ⟨tool_call.id, .notFound tool_call.function.name⟩
  | some tool =>
    match jsonParse (argsOrEmptyObj tool_call.function.arguments) with
    | .error e => .immediate ⟨tool_call.id, .parseError e⟩
    | .ok arguments =>
      .task (match tool.run arguments with
        | .ok ret => ⟨tool_call.id, ret⟩
        | .error e => ⟨tool_call.id, .runtimeError e.msg⟩)

/-! ## kimi_cli.wire.message — ApprovalRequest resolution -/

/-- `ApprovalRequest.Response` (kimi_cli/wire/message.py): the literal
union `"approve" | "approve_for_session" | "reject"`. -/
inductive ApprovalResponse
  | approve
  | approveForSession
  | reject
deriving DecidableEq

/-- The one-shot result state of `ApprovalRequest._future`, a model of the
external `asyncio.Future` (Python stdlib): `none` while pending, and
`set_result` on a future that is already done raises `InvalidStateError`
without touching the stored result. -/
structure ApprovalFuture where
  result : Option ApprovalResponse
deriving DecidableEq

/-- `asyncio.InvalidStateError`. -/
inductive InvalidStateError
  | invalidState
deriving DecidableEq

/-- `asyncio.Future.set_result`. -/
def ApprovalFuture.setResult (f : ApprovalFuture) (v : ApprovalResponse) :
    Except InvalidStateError ApprovalFuture :=
  match f.result with
  | some _ => .error .invalidState
  | none => .ok ⟨some v⟩

/-- `ApprovalRequest.resolve` (kimi_cli/wire/message.py):
`self._future.set_result(response)`. -/
def ApprovalRequest.resolve (f : ApprovalFuture) (response : ApprovalResponse) :
    Except InvalidStateError ApprovalFuture :=
  f.setResult response

/-- `ApprovalRequest.resolved` (kimi_cli/wire/message.py):
`self._future.done()`. -/
def ApprovalRequest.resolved (f : ApprovalFuture) : Bool :=
  f.result.isSome

/-- `ApprovalRequest.wait` (kimi_cli/wire/message.py): `await self._future`
— suspends until the future resolves, then returns the stored response. -/
def ApprovalRequest.wait (f : ApprovalFuture) : Option ApprovalResponse :=
  f.result

/-! ## kimi_cli.wire.message — the wire message union and envelope codec -/

/-- Modelled from the spec: `DisplayBlock` (kimi_cli/wire/display.py is
not under src/) — one display hint attached to an `ApprovalRequest`. -/
structure DisplayBlock where
  hint : String
deriving DecidableEq

/-- `TurnBegin.user_input`: the union `str | list[ContentPart]`. -/
inductive UserInput
  | plain (s : String)
  | parts (ps : List ContentPart)
deriving DecidableEq

/-- The `Event` union (kimi_cli/wire/message.py): every fire-and-forget
wire message. `SubagentEvent` nests a further `Event` (its validator
rejects a nested `ApprovalRequest`). -/
inductive Event
  | turnBegin (user_input : UserInput)
  | stepBegin (n : Int)
  | stepInterrupted
  | compactionBegin
  | compactionEnd
  | statusUpdate (context_usage : Option ℚ) (token_usage : Option TokenUsage)
      (message_id : Option String)
  | contentPart (c : ContentPart)
  | toolCall (tc : ToolCall)
  | toolCallPart (p : ToolCallPart)
  | toolResult (r : ToolResult)
  | subagentEvent (task_tool_call_id : String) (event : Event)
  | approvalRequestResolved (request_id : String) (response : ApprovalResponse)
deriving DecidableEq

/-- The serializable fields of `ApprovalRequest` (kimi_cli/wire/message.py);
the runtime `_future` is no pydantic field and takes no part in the
payload or in model equality. -/
structure ApprovalRequestData where
  id : String
  tool_call_id : String
  sender : String
  action : String
  description : String
  display : List DisplayBlock
deriving DecidableEq

/-- `WireMessage = Event | Request` with `Request = ApprovalRequest`. -/
inductive WireMessage
  | ev (e : Event)
  | req (r : ApprovalRequestData)
deriving DecidableEq

/-- `is_event` (kimi_cli/wire/message.py): membership in the `Event`
union. -/
def is_event : WireMessage → Bool
  | .ev _ => true
  | .req _ => false

/-- JSON rendering of an `str | None` field. -/
def optStrJson : Option String → Json
  | none => .null
  | some s => .str s

/-- `model_dump` of one `ContentPart`, with its `type` discriminator. -/
def encodeContentPart : ContentPart → JsonEntries
  | .text p => entriesOf [("type", .str "text"), ("text", .str p.text)]
  | .think p => entriesOf [("type", .str "think"), ("think", .str p.think),
      ("encrypted", optStrJson p.encrypted)]
  | .imageURL p => entriesOf [("type", .str "image_url"),
      ("image_url", .obj (entriesOf [("url", .str p.image_url.url),
        ("id", optStrJson p.image_url.id)]))]
  | .audioURL p => entriesOf [("type", .str "audio_url"),
      ("audio_url", .obj (entriesOf [("url", .str p.audio_url.url),
        ("id", optStrJson p.audio_url.id)]))]
  | .videoURL p => entriesOf [("type", .str "video_url"),
      ("video_url", .obj (entriesOf [("url", .str p.video_url.url),
        ("id", optStrJson p.video_url.id)]))]

/-- `model_dump` of a `ToolCall`. -/
def encodeToolCall (tc : ToolCall) : JsonEntries :=
  entriesOf [("type", .str "function"), ("id", .str tc.id),
    ("function", .obj (entriesOf [("name", .str tc.function.name),
      ("arguments", optStrJson tc.function.arguments)])),
    ("extras", match tc.extras with | none => .null | some e => .obj e)]

/-- `model_dump` of a `ToolCallPart`. -/
def encodeToolCallPart (p : ToolCallPart) : JsonEntries :=
  entriesOf [("arguments_part", optStrJson p.arguments_part)]

/-- `model_dump` of a `TokenUsage` (spec-modelled field layout). -/
def encodeTokenUsage (u : TokenUsage) : JsonEntries :=
  entriesOf [("input", .num u.input), ("output", .num u.output)]

/-- Tagged JSON rendering of a `ToolReturnValue` (spec-modelled:
`kosong.tooling` is not under src/). -/
def encodeReturnValue : ToolReturnValue → Json
  | .ok output => .obj (entriesOf [("kind", .str "ok"), ("output", .str output)])
  | .notFound name => .obj (entriesOf [("kind", .str "not_found"), ("name", .str name)])
  | .parseError msg => .obj (entriesOf [("kind", .str "parse_error"), ("message", .str msg)])
  | .runtimeError msg => .obj (entriesOf [("kind", .str "runtime_error"), ("message", .str msg)])
  | .rejected => .obj (entriesOf [("kind", .str "rejected")])
  | .timeout => .obj (entriesOf [("kind", .str "timeout")])

/-- `model_dump` of a `ToolResult` (spec-modelled). -/
def encodeToolResult (r : ToolResult) : JsonEntries :=
  entriesOf [("tool_call_id", .str r.tool_call_id),
    ("return_value", encodeReturnValue r.return_value)]

/-- `model_dump` of a `DisplayBlock` (spec-modelled). -/
def encodeDisplayBlock (b : DisplayBlock) : Json :=
  .obj (entriesOf [("hint", .str b.hint)])

/-- The string form of an `ApprovalRequest.Response` literal. -/
def encodeApprovalResponse : ApprovalResponse → String
  | .approve => "approve"
  | .approveForSession => "approve_for_session"
  | .reject => "reject"

/-- `model_dump` of the serializable `ApprovalRequest` fields. -/
def encodeApprovalRequest (r : ApprovalRequestData) : JsonEntries :=
  entriesOf [("id", .str r.id), ("tool_call_id", .str r.tool_call_id),
    ("sender", .str r.sender), ("action", .str r.action),
    ("description", .str r.description),
    ("display", .arr (listOf (r.display.map encodeDisplayBlock)))]

/-- The registry tag `WireMessageEnvelope.from_wire_message` assigns: the
`__name__` of the first registry class the message is an instance of.
Every concrete class matches exactly one entry — the five content-part
subclasses match their common registered base `ContentPart`, every other
variant is itself registered. -/
def eventTag : Event → String
  | .turnBegin _ => "TurnBegin"
  | .stepBegin _ => "StepBegin"
  | .stepInterrupted => "StepInterrupted"
  | .compactionBegin => "CompactionBegin"
  | .compactionEnd => "CompactionEnd"
  | .statusUpdate _ _ _ => "StatusUpdate"
  | .contentPart _ => "ContentPart"
  | .toolCall _ => "ToolCall"
  | .toolCallPart _ => "ToolCallPart"
  | .toolResult _ => "ToolResult"
  | .subagentEvent _ _ => "SubagentEvent"
  | .approvalRequestResolved _ _ => "ApprovalRequestResolved"

/-- `model_dump(mode="json")` of one `Event` as envelope payload.
`SubagentEvent`'s field serializer dumps the nested event as a full
envelope `{type, payload}` so the codec recurses without flattening the
nested tag. -/
def encodeEventPayload : Event → JsonEntries
  | .turnBegin (.plain s) => entriesOf [("user_input", .str s)]
  | .turnBegin (.parts ps) =>
    entriesOf [("user_input", .arr (listOf (ps.map (fun c => .obj (encodeContentPart c)))))]
  | .stepBegin n => entriesOf [("n", .num n)]
  | .stepInterrupted => .nil
  | .compactionBegin => .nil
  | .compactionEnd => .nil
  | .statusUpdate cu tu mid =>
    entriesOf [("context_usage", match cu with | none => .null | some q => .num q),
      ("token_usage", match tu with | none => .null | some u => .obj (encodeTokenUsage u)),
      ("message_id", optStrJson mid)]
  | .contentPart c => encodeContentPart c
  | .toolCall tc => encodeToolCall tc
  | .toolCallPart p => encodeToolCallPart p
  | .toolResult r => encodeToolResult r
  | .subagentEvent tcid e =>
    entriesOf [("task_tool_call_id", .str tcid),
      ("event", .obj (entriesOf [("type", .str (eventTag e)),
        ("payload", .obj (encodeEventPayload e))]))]
  | .approvalRequestResolved rid resp =>
    entriesOf [("request_id", .str rid), ("response", .str (encodeApprovalResponse resp))]

/-! ### Payload validation (pydantic `model_validate`)

Extra keys are ignored, required fields must be present with the right
shape, fields with a `None` default accept a missing key or `null`. A
`none` result models a pydantic `ValidationError`. -/

/-- A required `str` field value. -/
def Json.asStr : Json → Option String
  | .str s => some s
  | _ => none

/-- A required `str | None` field value. -/
def Json.asOptStr : Json → Option (Option String)
  | .null => some none
  | .str s => some (some s)
  | _ => none

/-- A required `int` field value: a JSON number with no fractional part. -/
def Json.asInt : Json → Option Int
  | .num q => if q.den = 1 then some q.num else none
  | _ => none

/-- A required non-negative integer field value. -/
def Json.asNat : Json → Option Nat
  | .num q => if q.den = 1 ∧ 0 ≤ q.num then some q.num.toNat else none
  | _ => none

/-- An optional `str | None` field: missing and `null` decode to `none`. -/
def getOptStr (payload : JsonEntries) (k : String) : Option (Option String) :=
  match payload.get k with
  | none => some none
  | some j => j.asOptStr

/-- An optional `float | None` field. -/
def getOptNum (payload : JsonEntries) (k : String) : Option (Option ℚ) :=
  match payload.get k with
  | none => some none
  | some .null => some none
  | some (.num q) => some (some q)
  | some _ => none

/-- The `url`/`id` body shared by the three media-URL content parts. -/
def decodeURLBody (j : Json) : Option (String × Option String) :=
  match j with
  | .obj kvs =>
    match kvs.get "url", getOptStr kvs "id" with
    | some (.str url), some id => some (url, id)
    | _, _ => none
  | _ => none

/-- `ContentPart` validation: `validate_content_part`
(kosong/message.py) dispatches on the payload's `type` discriminator
through the content-part registry, then validates that subclass's
fields; an unregistered `type` raises (`KeyError`), a wrong shape a
`ValidationError`. -/
def decodeContentPart (payload : JsonEntries) : Option ContentPart :=
  match payload.get "type" with
  | some (.str "text") =>
    match payload.get "text" with
    | some (.str t) => some (.text ⟨t⟩)
    | _ => none
  | some (.str "think") =>
    match payload.get "think", getOptStr payload "encrypted" with
    | some (.str t), some enc => some (.think ⟨t, enc⟩)
    | _, _ => none
  | some (.str "image_url") =>
    match (payload.get "image_url").bind decodeURLBody with
    | some (url, id) => some (.imageURL ⟨⟨url, id⟩⟩)
    | none => none
  | some (.str "audio_url") =>
    match (payload.get "audio_url").bind decodeURLBody with
    | some (url, id) => some (.audioURL ⟨⟨url, id⟩⟩)
    | none => none
  | some (.str "video_url") =>
    match (payload.get "video_url").bind decodeURLBody with
    | some (url, id) => some (.videoURL ⟨⟨url, id⟩⟩)
    | none => none
  | _ => none

/-- `ToolCall.FunctionBody` validation: `name` is required, `arguments`
is a required `str | None`. -/
def decodeFunctionBody (j : Json) : Option FunctionBody :=
  match j with
  | .obj kvs =>
    match kvs.get "name", kvs.get "arguments" with
    | some (.str n), some a => a.asOptStr.map (fun args => ⟨n, args⟩)
    | _, _ => none
  | _ => none

/-- The optional `extras` dict of a `ToolCall`. -/
def decodeExtras (payload : JsonEntries) : Option (Option JsonEntries) :=
  match payload.get "extras" with
  | none => some none
  | some .null => some none
  | some (.obj kvs) => some (some kvs)
  | some _ => none

/-- `ToolCall` validation: the `type` literal defaults to `"function"`
and must equal it when present. -/
def decodeToolCall (payload : JsonEntries) : Option ToolCall :=
  match payload.get "type" with
  | some (.str "function") | none =>
    match payload.get "id", (payload.get "function").bind decodeFunctionBody,
        decodeExtras payload with
    | some (.str id), some fb, some ex => some ⟨id, fb, ex⟩
    | _, _, _ => none
  | _ => none

/-- `ToolCallPart` validation: `arguments_part` defaults to `None`. -/
def decodeToolCallPart (payload : JsonEntries) : Option ToolCallPart :=
  (getOptStr payload "arguments_part").map (fun a => ⟨a⟩)

/-- `TokenUsage` validation (spec-modelled layout). -/
def decodeTokenUsage (j : Json) : Option TokenUsage :=
  match j with
  | .obj kvs =>
    match (kvs.get "input").bind Json.asNat, (kvs.get "output").bind Json.asNat with
    | some i, some o => some ⟨i, o⟩
    | _, _ => none
  | _ => none

/-- An optional `TokenUsage | None` field. -/
def getOptUsage (payload : JsonEntries) (k : String) : Option (Option TokenUsage) :=
  match payload.get k with
  | none => some none
  | some .null => some none
  | some j => (decodeTokenUsage j).map some

/-- `ToolReturnValue` validation (spec-modelled tagging). -/
def decodeReturnValue (j : Json) : Option ToolReturnValue :=
  match j with
  | .obj kvs =>
    match kvs.get "kind" with
    | some (.str "ok") => ((kvs.get "output").bind Json.asStr).map .ok
    | some (.str "not_found") => ((kvs.get "name").bind Json.asStr).map .notFound
    | some (.str "parse_error") => ((kvs.get "message").bind Json.asStr).map .parseError
    | some (.str "runtime_error") => ((kvs.get "message").bind Json.asStr).map .runtimeError
    | some (.str "rejected") => some .rejected
    | some (.str "timeout") => some .timeout
    | _ => none
  | _ => none

/-- `ToolResult` validation (spec-modelled). -/
def decodeToolResult (payload : JsonEntries) : Option ToolResult :=
  match payload.get "tool_call_id", (payload.get "return_value").bind decodeReturnValue with
  | some (.str id), some rv => some ⟨id, rv⟩
  | _, _ => none

/-- `DisplayBlock` validation (spec-modelled). -/
def decodeDisplayBlock (j : Json) : Option DisplayBlock :=
  match j with
  | .obj kvs => ((kvs.get "hint").bind Json.asStr).map .mk
  | _ => none

/-- `ApprovalRequest.Response` literal validation. -/
def decodeApprovalResponse : Json → Option ApprovalResponse
  | .str "approve" => some .approve
  | .str "approve_for_session" => some .approveForSession
  | .str "reject" => some .reject
  | _ => none

/-- `ApprovalRequest` validation: all text fields required, `display`
defaults to the empty list. -/
def decodeApprovalRequest (payload : JsonEntries) : Option ApprovalRequestData :=
  match payload.get "id", payload.get "tool_call_id", payload.get "sender",
      payload.get "action", payload.get "description" with
  | some (.str id), some (.str tcid), some (.str sender), some (.str action),
      some (.str desc) =>
    match payload.get "display" with
    | none => some ⟨id, tcid, sender, action, desc, []⟩
    | some (.arr xs) =>
      (xs.toList.mapM decodeDisplayBlock).map (fun ds => ⟨id, tcid, sender, action, desc, ds⟩)
    | some _ => none
  | _, _, _, _, _ => none

/-- A `ContentPart` list element: must be a dict with a registered
`type`. -/
def decodeContentPartJson : Json → Option ContentPart
  | .obj kvs => decodeContentPart kvs
  | _ => none

/-- `TurnBegin.user_input` validation: the union `str | list[ContentPart]`. -/
def decodeUserInput : Json → Option UserInput
  | .str s => some (.plain s)
  | .arr xs => (xs.toList.mapM decodeContentPartJson).map UserInput.parts
  | _ => none

/-- Decode failures of `WireMessageEnvelope.to_wire_message`: the
`ValueError("Unknown wire message type: ...")` raised when the tag misses
the registry, and every pydantic `ValidationError` raised while
validating a payload (including a nested envelope failure inside
`SubagentEvent`, which pydantic wraps into the outer validation error). -/
inductive DecodeError
  | unknownVariant (tag : String)
  | validationError
deriving DecidableEq

/-- A successful dict lookup returns a value no larger than the dict. -/
theorem JsonEntries.get_size_le : {kvs : JsonEntries} → {k : String} → {v : Json} →
    kvs.get k = some v → v.size ≤ kvs.size
  | .nil, _, _, h => by simp [JsonEntries.get] at h
  | .cons k' v' rest, k, v, h => by
    simp only [JsonEntries.get] at h
    split at h
    · cases h
      simp [JsonEntries.size]
    · have := get_size_le h
      simp only [JsonEntries.size]
      omega

/-- `_NAME_TO_WIRE_MESSAGE_TYPE` lookup plus `model_validate`
(kimi_cli/wire/message.py): decode one envelope by its type tag. The
`SubagentEvent` branch recurses into the nested envelope (its validator
re-raises nested failures as validation errors and insists the nested
message is an `Event`). A tag outside the registry fails with
`UnknownVariant`. -/
def decodeByTag : (tag : String) → (payload : JsonEntries) → Except DecodeError WireMessage
  | "TurnBegin", payload =>
    match (payload.get "user_input").bind decodeUserInput with
    | some ui => .ok (.ev (.turnBegin ui))
    | none => .error .validationError
  | "StepBegin", payload =>
    match (payload.get "n").bind Json.asInt with
    | some n => .ok (.ev (.stepBegin n))
    | none => .error .validationError
  | "StepInterrupted", _ => .ok (.ev .stepInterrupted)
  | "CompactionBegin", _ => .ok (.ev .compactionBegin)
  | "CompactionEnd", _ => .ok (.ev .compactionEnd)
  | "StatusUpdate", payload =>
    match getOptNum payload "context_usage", getOptUsage payload "token_usage",
        getOptStr payload "message_id" with
    | some cu, some tu, some mid => .ok (.ev (.statusUpdate cu tu mid))
    | _, _, _ => .error .validationError
  | "ContentPart", payload =>
    match decodeContentPart payload with
    | some c => .ok (.ev (.contentPart c))
    | none => .error .validationError
  | "ToolCall", payload =>
    match decodeToolCall payload with
    | some tc => .ok (.ev (.toolCall tc))
    | none => .error .validationError
  | "ToolCallPart", payload =>
    match decodeToolCallPart payload with
    | some p => .ok (.ev (.toolCallPart p))
    | none => .error .validationError
  | "ToolResult", payload =>
    match decodeToolResult payload with
    | some r => .ok (.ev (.toolResult r))
    | none => .error .validationError
  | "SubagentEvent", payload =>
    match payload.get "task_tool_call_id", h1 : payload.get "event" with
    | some (.str tcid), some (.obj entries) =>
      match entries.get "type", h3 : entries.get "payload" with
      | some (.str tag'), some (.obj pl') =>
        match decodeByTag tag' pl' with
        | .ok (.ev e) => .ok (.ev (.subagentEvent tcid e))
        | .ok (.req _) => .error .validationError
        | .error _ => .error .validationError
      | _, _ => .error .validationError
    | _, _ => .error .validationError
  | "ApprovalRequestResolved", payload =>
    match payload.get "request_id", (payload.get "response").bind decodeApprovalResponse with
    | some (.str rid), some resp => .ok (.ev (.approvalRequestResolved rid resp))
    | _, _ => .error .validationError
  | "ApprovalRequest", payload =>
    match decodeApprovalRequest payload with
    | some r => .ok (.req r)
    | none => .error .validationError
  | tag, _ => .error (.unknownVariant tag)
termination_by tag payload => payload.size
decreasing_by
  have hev := JsonEntries.get_size_le h1
  have hpl := JsonEntries.get_size_le h3
  simp only [Json.size] at hev hpl
  omega

/-- `WireMessageEnvelope` (kimi_cli/wire/message.py): `{type, payload}`. -/
structure WireMessageEnvelope where
  type : String
  payload : JsonEntries
deriving DecidableEq

/-- `WireMessageEnvelope.from_wire_message`: scan the registry for the
first class the message is an instance of and dump the message as that
tag's payload. -/
def WireMessageEnvelope.from_wire_message : WireMessage → WireMessageEnvelope
  | .ev e => ⟨eventTag e, encodeEventPayload e⟩
  | .req r => ⟨"ApprovalRequest", encodeApprovalRequest r⟩

/-- `WireMessageEnvelope.to_wire_message`: registry lookup by tag, then
payload validation. -/
def WireMessageEnvelope.to_wire_message (env : WireMessageEnvelope) :
    Except DecodeError WireMessage :=
  decodeByTag env.type env.payload

/-- The keys of `_NAME_TO_WIRE_MESSAGE_TYPE`: the `__name__` of every
class in `flatten_union(WireMessage)`. -/
def registeredTags : List String :=
  ["TurnBegin", "StepBegin", "StepInterrupted", "CompactionBegin", "CompactionEnd",
   "StatusUpdate", "ContentPart", "ToolCall", "ToolCallPart", "ToolResult",
   "SubagentEvent", "ApprovalRequestResolved", "ApprovalRequest"]

/-- Decidable equality on `Except`, so that witnesses can be checked by
evaluation. -/
instance {ε α : Type} [DecidableEq ε] [DecidableEq α] : DecidableEq (Except ε α) := fun x y =>
  match x, y with
  | .ok a, .ok b =>
    if h : a = b then isTrue (by rw [h])
    else isFalse (by intro hc; cases hc; exact h rfl)
  | .error a, .error b =>
    if h : a = b then isTrue (by rw [h])
    else isFalse (by intro hc; cases hc; exact h rfl)
  | .ok _, .error _ => isFalse (fun hc => Except.noConfusion hc)
  | .error _, .ok _ => isFalse (fun hc => Except.noConfusion hc)

/-! ## Concrete instances used by the witnesses -/

/-- Tool call `A` of the three-call demo step. -/
def wA : ToolCall := ⟨"a", ⟨"tool_a", some "{}"⟩, none⟩

/-- Tool call `B`. -/
def wB : ToolCall := ⟨"b", ⟨"tool_b", some "{}"⟩, none⟩

/-- Tool call `C`. -/
def wC : ToolCall := ⟨"c", ⟨"tool_c", some "{}"⟩, none⟩

/-- A toolset-dispatch function launching every call as a task whose
eventual result is `Ok` with the call id as output. -/
def demoHandle : ToolCall → HandleResult := fun tc => .task ⟨tc.id, .ok tc.id⟩

/-- A completion schedule finishing the executions in the order C, B, A —
the reverse of the emission order A, B, C. -/
def demoSched : String → Nat := fun s => if s = "a" then 3 else if s = "b" then 2 else 1

/-- A stream emitting the three tool calls A, B, C and ending. -/
def demoPartsABC : List StreamedMessagePart := [.toolCall wA, .toolCall wB, .toolCall wC]

/-- A stream emitting A and B, then failing: A is finalized (and hence
dispatched) when B arrives, B is still pending when the stream dies. -/
def demoPartsAB : List StreamedMessagePart := [.toolCall wA, .toolCall wB]

/-- The `StepResult` of the successful three-call demo step. -/
def demoStepResult : StepResult :=
  ⟨none, ⟨[], some [wA, wB, wC]⟩, none, [wA, wB, wC],
    [("a", .running ⟨"a", .ok "a"⟩ 3), ("b", .running ⟨"b", .ok "b"⟩ 2),
     ("c", .running ⟨"c", .ok "c"⟩ 1)]⟩

/-- A model `json.loads`: accepts exactly `"{}"`, reports any other text
as the parse-error message itself. -/
def demoParse : String → Except String Json := fun s =>
  if s = "{}" then .ok (.obj .nil) else .error s

/-- A tool whose body always raises (`str(e) = "division by zero"`). -/
def demoFaultyTool : ToolImpl := ⟨fun _ => .error ⟨"division by zero"⟩⟩

/-- A toolset with the single faulty tool registered as `"boom"`. -/
def demoToolset : KimiToolset := ⟨[("boom", demoFaultyTool)]⟩

/-! ## Supporting lemmas: payload round-trips -/

theorem optStrJson_asOptStr (o : Option String) : (optStrJson o).asOptStr = some o := by
  cases o <;> rfl

theorem toList_listOf (l : List Json) : (listOf l).toList = l := by
  induction l with
  | nil => rfl
  | cons j rest ih => simp [listOf, JsonList.toList, ih]

theorem mapM_map_of_inverse {α β : Type} (f : α → β) (g : β → Option α)
    (h : ∀ x, g (f x) = some x) (l : List α) : (l.map f).mapM g = some l := by
  induction l with
  | nil => rfl
  | cons a rest ih =>
    rw [List.map_cons, List.mapM_cons, h, ih]
    rfl

theorem decode_encode_contentPart (c : ContentPart) :
    decodeContentPart (encodeContentPart c) = some c := by
  cases c with
  | text p => simp [encodeContentPart, decodeContentPart, entriesOf, JsonEntries.get]
  | think p =>
    simp [encodeContentPart, decodeContentPart, entriesOf, JsonEntries.get, getOptStr,
      optStrJson_asOptStr]
  | imageURL p =>
    simp [encodeContentPart, decodeContentPart, entriesOf, JsonEntries.get, decodeURLBody,
      getOptStr, optStrJson_asOptStr]
  | audioURL p =>
    simp [encodeContentPart, decodeContentPart, entriesOf, JsonEntries.get, decodeURLBody,
      getOptStr, optStrJson_asOptStr]
  | videoURL p =>
    simp [encodeContentPart, decodeContentPart, entriesOf, JsonEntries.get, decodeURLBody,
      getOptStr, optStrJson_asOptStr]

theorem decode_encode_toolCall (tc : ToolCall) :
    decodeToolCall (encodeToolCall tc) = some tc := by
  rcases tc with ⟨id, ⟨name, args⟩, ex⟩
  cases ex <;>
    simp [encodeToolCall, decodeToolCall, entriesOf, JsonEntries.get, decodeFunctionBody,
      decodeExtras, optStrJson_asOptStr]

theorem decode_encode_toolCallPart (p : ToolCallPart) :
    decodeToolCallPart (encodeToolCallPart p) = some p := by
  simp [encodeToolCallPart, decodeToolCallPart, entriesOf, JsonEntries.get, getOptStr,
    optStrJson_asOptStr]

theorem asNat_natCast (n : ℕ) : Json.asNat (.num n) = some n := by
  simp [Json.asNat]

theorem asInt_intCast (n : ℤ) : Json.asInt (.num n) = some n := by
  simp [Json.asInt]

theorem decode_encode_tokenUsage (u : TokenUsage) :
    decodeTokenUsage (.obj (encodeTokenUsage u)) = some u := by
  simp [encodeTokenUsage, decodeTokenUsage, entriesOf, JsonEntries.get, asNat_natCast]

theorem decode_encode_returnValue (v : ToolReturnValue) :
    decodeReturnValue (encodeReturnValue v) = some v := by
  cases v <;> simp [encodeReturnValue, decodeReturnValue, entriesOf, JsonEntries.get, Json.asStr]

theorem decode_encode_toolResult (r : ToolResult) :
    decodeToolResult (encodeToolResult r) = some r := by
  simp [encodeToolResult, decodeToolResult, entriesOf, JsonEntries.get,
    decode_encode_returnValue]

theorem decode_encode_displayBlock (b : DisplayBlock) :
    decodeDisplayBlock (encodeDisplayBlock b) = some b := by
  simp [encodeDisplayBlock, decodeDisplayBlock, entriesOf, JsonEntries.get, Json.asStr]

theorem decode_encode_approvalResponse (r : ApprovalResponse) :
    decodeApprovalResponse (.str (encodeApprovalResponse r)) = some r := by
  cases r <;> rfl

theorem decode_encode_approvalRequest (r : ApprovalRequestData) :
    decodeApprovalRequest (encodeApprovalRequest r) = some r := by
  rcases r with ⟨id, tcid, sender, action, desc, display⟩
  have hm : (List.map encodeDisplayBlock display).mapM decodeDisplayBlock = some display :=
    mapM_map_of_inverse _ _ decode_encode_displayBlock display
  simp only [List.mapM] at hm
  simp [encodeApprovalRequest, decodeApprovalRequest, entriesOf, JsonEntries.get,
    toList_listOf, hm]

theorem decode_encode_contentPartJson (c : ContentPart) :
    decodeContentPartJson (.obj (encodeContentPart c)) = some c := by
  simp [decodeContentPartJson, decode_encode_contentPart]

theorem decodeByTag_encode (e : Event) :
    decodeByTag (eventTag e) (encodeEventPayload e) = .ok (.ev e) := by
  induction e with
  | turnBegin ui =>
    cases ui with
    | plain s =>
      simp only [eventTag, encodeEventPayload]
      rw [decodeByTag]
      simp [entriesOf, JsonEntries.get, decodeUserInput]
    | parts ps =>
      simp only [eventTag, encodeEventPayload]
      rw [decodeByTag]
      have hm : (List.map (fun c => Json.obj (encodeContentPart c)) ps).mapM
          decodeContentPartJson = some ps :=
        mapM_map_of_inverse _ _ decode_encode_contentPartJson ps
      simp only [List.mapM] at hm
      simp [entriesOf, JsonEntries.get, decodeUserInput, toList_listOf, hm]
  | stepBegin n =>
    simp only [eventTag, encodeEventPayload]
    rw [decodeByTag]
    simp [entriesOf, JsonEntries.get, asInt_intCast]
  | stepInterrupted => rw [eventTag, encodeEventPayload, decodeByTag]
  | compactionBegin => rw [eventTag, encodeEventPayload, decodeByTag]
  | compactionEnd => rw [eventTag, encodeEventPayload, decodeByTag]
  | statusUpdate cu tu mid =>
    simp only [eventTag, encodeEventPayload]
    rw [decodeByTag]
    cases cu <;> cases tu <;>
      simp [entriesOf, JsonEntries.get, getOptNum, getOptUsage, getOptStr,
        optStrJson_asOptStr, decode_encode_tokenUsage]
  | contentPart c =>
    simp only [eventTag, encodeEventPayload]
    rw [decodeByTag]
    simp [decode_encode_contentPart]
  | toolCall tc =>
    simp only [eventTag, encodeEventPayload]
    rw [decodeByTag]
    simp [decode_encode_toolCall]
  | toolCallPart p =>
    simp only [eventTag, encodeEventPayload]
    rw [decodeByTag]
    simp [decode_encode_toolCallPart]
  | toolResult r =>
    simp only [eventTag, encodeEventPayload]
    rw [decodeByTag]
    simp [decode_encode_toolResult]
  | subagentEvent tcid inner ih =>
    show decodeByTag "SubagentEvent"
        (entriesOf [("task_tool_call_id", .str tcid),
          ("event", .obj (entriesOf [("type", .str (eventTag inner)),
            ("payload", .obj (encodeEventPayload inner))]))])
      = .ok (.ev (.subagentEvent tcid inner))
    rw [decodeByTag]
    simp [entriesOf, JsonEntries.get, ih]
  | approvalRequestResolved rid resp =>
    simp only [eventTag, encodeEventPayload]
    rw [decodeByTag]
    simp [entriesOf, JsonEntries.get, decode_encode_approvalResponse]

/-! ## Supporting lemmas: step dispatch -/

theorem awaitResult_dispatchHandle (handleOf : ToolCall → HandleResult) (sched : String → Nat)
    (tc : ToolCall) :
    (dispatchHandle handleOf sched tc).awaitResult = (handleOf tc).eventualResult := by
  cases h : handleOf tc <;>
    simp [dispatchHandle, h, ResultHandle.awaitResult, HandleResult.eventualResult]

theorem dictGet_append_right {α : Type} (d₁ d₂ : List (String × α)) (k : String)
    (h : dictGet d₁ k = none) : dictGet (d₁ ++ d₂) k = dictGet d₂ k := by
  induction d₁ with
  | nil => rfl
  | cons kv rest ih =>
    rcases kv with ⟨k', v⟩
    by_cases hk : k' = k
    · simp [dictGet, hk] at h
    · simp only [List.cons_append, dictGet, if_neg hk] at h ⊢
      exact ih h

theorem dictGet_calls_map (g : ToolCall → ResultHandle) :
    ∀ (l : List ToolCall), (l.map ToolCall.id).Nodup → ∀ tc ∈ l,
      dictGet (l.map (fun c => (c.id, g c))) tc.id = some (g tc) := by
  intro l
  induction l with
  | nil => intro _ tc h; cases h
  | cons a rest ih =>
    intro hnd tc hmem
    have hnd' : (∀ x ∈ rest, ¬x.id = a.id) ∧ (rest.map ToolCall.id).Nodup := by
      simpa using hnd
    simp only [List.map_cons, dictGet]
    rcases List.mem_cons.mp hmem with rfl | hmem'
    · rw [if_pos rfl]
    · have hane : a.id ≠ tc.id := fun hEq => hnd'.1 tc hmem' hEq.symm
      rw [if_neg hane]
      exact ih hnd'.2 tc hmem'

theorem foldl_onToolCall (handleOf : ToolCall → HandleResult) (sched : String → Nat) :
    ∀ (calls : List ToolCall) (acc : List ToolCall × List (String × ResultHandle)),
      (calls.map ToolCall.id).Nodup →
      (∀ tc ∈ calls, dictGet acc.2 tc.id = none) →
      calls.foldl (onToolCall handleOf sched) acc
        = (acc.1 ++ calls,
           acc.2 ++ calls.map (fun tc => (tc.id, dispatchHandle handleOf sched tc))) := by
  intro calls
  induction calls with
  | nil => intro acc _ _; simp
  | cons a rest ih =>
    intro acc hnd hfree
    have hnd' : (∀ x ∈ rest, ¬x.id = a.id) ∧ (rest.map ToolCall.id).Nodup := by
      simpa using hnd
    have ha : dictGet acc.2 a.id = none := hfree a (by simp)
    have hstep : onToolCall handleOf sched acc a
        = (acc.1 ++ [a], acc.2 ++ [(a.id, dispatchHandle handleOf sched a)]) := by
      simp [onToolCall, dictSet, ha]
    have hfree' : ∀ tc ∈ rest,
        dictGet (acc.2 ++ [(a.id, dispatchHandle handleOf sched a)]) tc.id = none := by
      intro tc hmem
      rw [dictGet_append_right _ _ _ (hfree tc (by simp [hmem]))]
      have hane : a.id ≠ tc.id := fun hEq => hnd'.1 tc hmem hEq.symm
      simp [dictGet, hane]
    rw [List.foldl_cons, hstep, ih _ hnd'.2 hfree']
    simp

theorem mapM_eq_map_of_some {α β : Type} (g : α → Option β) (f : α → β) :
    ∀ (l : List α), (∀ x ∈ l, g x = some (f x)) → l.mapM g = some (l.map f) := by
  intro l
  induction l with
  | nil => intro _; rfl
  | cons a rest ih =>
    intro h
    rw [List.mapM_cons, h a (by simp), ih (fun x hx => h x (by simp [hx]))]
    rfl

/-! ## Theorems: merge-engine claims -/

/-- C3: `generate` fails with the `EmptyResponse` error if and only if the
finalized assistant message has no content units and no tool calls
(`tool_calls` being `None` or the empty list); whenever the message has at
least one content unit or tool call, `generate` returns a result carrying
exactly that message (plus the stream id and usage). -/
theorem generate_emptyResponse_iff (id : Option String) (usage : Option TokenUsage)
    (parts : List StreamedMessagePart) :
    generate id usage parts =
      if (mergeStream parts).message.content = []
          ∧ (mergeStream parts).message.tool_calls.getD [] = [] then
        .error .emptyResponse
      else
        .ok ⟨id, (mergeStream parts).message, usage⟩ := by
  unfold generate
  rcases h : (mergeStream parts).message.tool_calls with _ | (_ | ⟨a, l⟩) <;> simp [h]

/-- C4: a pending `ToolCall` absorbs a continuation argument delta by
strict string concatenation, for every pair of argument strings (no JSON
parsing of the accumulated string happens before finalization); in
particular a tool-call fragment carrying args `s₁` followed by the
continuation delta `s₂` for the same call yields a single finalized
`ToolCall` whose arguments are `s₁ ++ s₂` (with id, name and extras
untouched). -/
theorem toolCall_args_strict_concat (id name s₁ s₂ : String) (ex : Option JsonEntries) :
    mergeInPlace (.toolCall ⟨id, ⟨name, some s₁⟩, ex⟩) (.toolCallPart ⟨some s₂⟩)
      = some (.toolCall ⟨id, ⟨name, some (s₁ ++ s₂)⟩, ex⟩)
    ∧ ∀ (uid : Option String) (uusage : Option TokenUsage),
        generate uid uusage [.toolCall ⟨id, ⟨name, some s₁⟩, ex⟩, .toolCallPart ⟨some s₂⟩]
          = .ok ⟨uid, { content := [], tool_calls := some [⟨id, ⟨name, some (s₁ ++ s₂)⟩, ex⟩] },
              uusage⟩ := by
  refine ⟨rfl, fun uid uusage => ?_⟩
  simp [generate, mergeStream, consumePart, mergeInPlace, MergeState.init, finalizePending,
    messageAppend, optArgConcat]

/-- C5 counterexample: a `ThinkPart` whose `encrypted` stamp is the empty
string does carry a stamp (`encrypted ≠ None`), yet a further
`ThinkFragment` merge attempt is accepted rather than rejected, because
`merge_in_place` tests `if self.encrypted:` with Python truthiness and
`""` is falsy. -/
theorem think_stamp_counterexample :
    (ThinkPart.mk "a" (some "")).encrypted ≠ none
    ∧ mergeInPlace (.content (.think ⟨"a", some ""⟩)) (.content (.think ⟨"b", none⟩))
        = some (.content (.think ⟨"ab", some ""⟩)) := by
  exact ⟨by simp, rfl⟩

/-- C5 (amended): once a pending `ThinkUnit` carries a truthy (non-`None`,
non-empty) `"encrypted"` stamp, every subsequent `ThinkFragment` merge
attempt against it is rejected — the pending unit finalizes and the next
fragment starts a new unit; a merge that succeeds concatenates the think
text and absorbs the incoming fragment's stamp exactly when that stamp is
truthy. -/
theorem think_stamp_merge (p q : ThinkPart) :
    (pyTruthy p.encrypted = true →
      mergeInPlace (.content (.think p)) (.content (.think q)) = none
      ∧ ∀ (m : Message) (fin : List ToolCall),
          consumePart ⟨m, some (.content (.think p)), fin⟩ (.content (.think q))
            = ⟨{ m with content := m.content ++ [.think p] }, some (.content (.think q)), fin⟩)
    ∧ (pyTruthy p.encrypted = false →
      mergeInPlace (.content (.think p)) (.content (.think q))
        = some (.content (.think ⟨p.think ++ q.think,
            if pyTruthy q.encrypted then q.encrypted else p.encrypted⟩))) := by
  constructor
  · intro h
    refine ⟨by simp [mergeInPlace, h], fun m fin => ?_⟩
    simp [consumePart, mergeInPlace, h, finalizePending, messageAppend]
  · intro h
    simp [mergeInPlace, h]

/-- C5 witness: at concrete inputs, a truthy-stamped think unit rejects a
merge, and an unstamped one accepts it, concatenating and absorbing the
incoming truthy stamp. -/
theorem think_stamp_merge_witness :
    mergeInPlace (.content (.think ⟨"a", some "sig"⟩)) (.content (.think ⟨"b", none⟩)) = none
    ∧ mergeInPlace (.content (.think ⟨"a", none⟩)) (.content (.think ⟨"b", some "sig"⟩))
        = some (.content (.think ⟨"ab", some "sig"⟩)) := by
  refine ⟨((think_stamp_merge ⟨"a", some "sig"⟩ ⟨"b", none⟩).1 (by decide)).1, ?_⟩
  have h := (think_stamp_merge ⟨"a", none⟩ ⟨"b", some "sig"⟩).2 (by decide)
  simpa using h

/-- C10: a tool-call continuation delta that cannot merge into a pending
`ToolCall` becomes the pending unit itself (whether it arrives first or
after a non-tool-call pending unit), absorbs subsequent id-less deltas by
concatenation, and at finalization is silently discarded: appended to
neither the message content nor the tool-call list, with no error
raised. -/
theorem orphan_toolCallPart_discarded (s t : Option String) (m : Message) (txt : String)
    (p : ToolCallPart) :
    consumePart MergeState.init (.toolCallPart p)
      = { MergeState.init with pending := some (.toolCallPart p) }
    ∧ (∀ (fin : List ToolCall),
        consumePart ⟨m, some (.content (.text ⟨txt⟩)), fin⟩ (.toolCallPart p)
          = ⟨{ m with content := m.content ++ [.text ⟨txt⟩] }, some (.toolCallPart p), fin⟩)
    ∧ mergeInPlace (.toolCallPart ⟨s⟩) (.toolCallPart ⟨t⟩)
        = some (.toolCallPart ⟨optArgConcat s t⟩)
    ∧ messageAppend m (.toolCallPart p) = m
    ∧ ∀ (uid : Option String) (uusage : Option TokenUsage),
        generate uid uusage [.content (.text ⟨txt⟩), .toolCallPart ⟨s⟩, .toolCallPart ⟨t⟩]
          = .ok ⟨uid, { content := [.text ⟨txt⟩], tool_calls := none }, uusage⟩ := by
  refine ⟨rfl, fun fin => ?_, rfl, rfl, fun uid uusage => ?_⟩
  · simp [consumePart, mergeInPlace, finalizePending, messageAppend]
  · simp [generate, mergeStream, consumePart, mergeInPlace, MergeState.init, finalizePending,
      messageAppend, optArgConcat]

/-! ## Theorems: step coordinator claims -/

/-- C1: for every step whose stream finalizes its tool calls in emission
order and whose dispatched executions complete under an arbitrary schedule
(the conclusion holds for every `sched`, so in particular when the
completion order is the reverse of emission order),
`StepResult.tool_results` awaits each handle in the original call order
and returns the eventual `ToolResult`s in exactly that order. -/
theorem step_tool_results_emission_order
    (handleOf : ToolCall → HandleResult) (sched : String → Nat) (cancelAt : Nat)
    (id : Option String) (usage : Option TokenUsage) (parts : List StreamedMessagePart)
    (sr : StepResult)
    (hNodup : (((mergeStream parts).finalizedToolCalls).map ToolCall.id).Nodup)
    (hok : runStep handleOf sched cancelAt (.success id usage parts) = .ok sr) :
    sr.tool_calls = (mergeStream parts).finalizedToolCalls
    ∧ sr.tool_results
        = some (sr.tool_calls.map (fun tc => (handleOf tc).eventualResult)) := by
  have hfold := foldl_onToolCall handleOf sched (mergeStream parts).finalizedToolCalls ([], [])
    hNodup (fun tc _ => rfl)
  cases hgen : generate id usage parts with
  | error e =>
    cases e
    simp only [runStep, hgen] at hok
    exact Except.noConfusion hok
  | ok res =>
    simp only [runStep, hgen] at hok
    rw [hfold] at hok
    simp only [List.nil_append] at hok
    have hsr := (Except.ok.inj hok).symm
    subst hsr
    refine ⟨rfl, ?_⟩
    by_cases hc : (mergeStream parts).finalizedToolCalls = []
    · simp [StepResult.tool_results, hc]
    · have hfut : (mergeStream parts).finalizedToolCalls.map
          (fun tc => (tc.id, dispatchHandle handleOf sched tc)) ≠ [] := by
        simpa using hc
      simp only [StepResult.tool_results, if_neg hfut]
      apply mapM_eq_map_of_some
      intro tc hmem
      rw [dictGet_calls_map (dispatchHandle handleOf sched) _ hNodup tc hmem]
      simp [awaitResult_dispatchHandle]

/-- C1 witness: the three calls A, B, C are emitted in that order and
complete in the order C, B, A (`demoSched` finishes "c" first), yet
`tool_results` returns the results in the emission order A, B, C. -/
theorem step_tool_results_emission_order_witness :
    demoStepResult.tool_calls = [wA, wB, wC]
    ∧ demoStepResult.tool_results
        = some [⟨"a", .ok "a"⟩, ⟨"b", .ok "b"⟩, ⟨"c", .ok "c"⟩] := by
  have h := step_tool_results_emission_order demoHandle demoSched 0 none none demoPartsABC
    demoStepResult (by decide) (by decide)
  refine ⟨?_, ?_⟩
  · rw [h.1]
    decide
  · rw [h.2]
    decide

/-- C2: when the stream fails (provider error or cancellation) after some
tool calls were already dispatched, `step` cancels every created handle,
drains them with their termination errors suppressed, and re-raises the
original failure carrying each handle's terminal (resolved-or-cancelled)
state; no `StepResult` is ever returned, so result collection is never
invoked and every dispatched execution is accounted for. -/
theorem step_failure_drains
    (handleOf : ToolCall → HandleResult) (sched : String → Nat) (cancelAt : Nat)
    (partsSeen : List StreamedMessagePart) (e : StepFailure)
    (hNodup : (((partsSeen.foldl consumePart MergeState.init).finalizedToolCalls).map
      ToolCall.id).Nodup) :
    runStep handleOf sched cancelAt (.failure partsSeen e)
      = .error (.failedAfterDrain e
          ((partsSeen.foldl consumePart MergeState.init).finalizedToolCalls.map
            (fun tc => (tc.id, (dispatchHandle handleOf sched tc).finalAfterCancel cancelAt))))
    ∧ ∀ sr : StepResult, runStep handleOf sched cancelAt (.failure partsSeen e) ≠ .ok sr := by
  have hfold := foldl_onToolCall handleOf sched
    (partsSeen.foldl consumePart MergeState.init).finalizedToolCalls ([], [])
    hNodup (fun tc _ => rfl)
  constructor
  · simp only [runStep]
    rw [hfold]
    simp only [List.nil_append, List.map_map]
    rfl
  · intro sr h
    simp only [runStep] at h
    exact Except.noConfusion h

/-- C2 witness: the stream emits A and B and then fails with a provider
error; only A was finalized and dispatched, its still-running handle ends
cancelled, and the original error is re-raised — no `StepResult` exists. -/
theorem step_failure_drains_witness :
    runStep demoHandle demoSched 0 (.failure demoPartsAB (.chatProviderError "boom"))
      = .error (.failedAfterDrain (.chatProviderError "boom") [("a", .cancelled)]) := by
  have h := (step_failure_drains demoHandle demoSched 0 demoPartsAB
    (.chatProviderError "boom") (by decide)).1
  rw [h]
  decide

/-! ## Theorems: toolset dispatch claim -/

/-- C8: `KimiToolset.handle` never propagates a fault to the caller: an
unregistered tool name yields an immediate NotFound result, an argument
string rejected by `json.loads` (any parser instantiating it) yields an
immediate ParseError result, and an exception raised inside the tool body
is caught at the dispatch boundary and becomes the task's RuntimeError
`ToolResult` — while the dispatch of every other call in a batch is the
same function of that call alone, so one call's fault never touches its
siblings. -/
theorem toolset_handle_isolates
    (jsonParse : String → Except String Json) (ts : KimiToolset) (tc : ToolCall) :
    (dictGet ts.tool_dict tc.function.name = none →
      KimiToolset.handle jsonParse ts tc
        = .immediate ⟨tc.id, .notFound tc.function.name⟩)
    ∧ (∀ tool e, dictGet ts.tool_dict tc.function.name = some tool →
        jsonParse (argsOrEmptyObj tc.function.arguments) = .error e →
        KimiToolset.handle jsonParse ts tc = .immediate ⟨tc.id, .parseError e⟩)
    ∧ (∀ tool args exc, dictGet ts.tool_dict tc.function.name = some tool →
        jsonParse (argsOrEmptyObj tc.function.arguments) = .ok args →
        tool.run args = .error exc →
        KimiToolset.handle jsonParse ts tc = .task ⟨tc.id, .runtimeError exc.msg⟩)
    ∧ (∀ (calls : List ToolCall) (i : ℕ) (hi : i < calls.length),
        (calls.map (KimiToolset.handle jsonParse ts)).get ⟨i, by simpa using hi⟩
          = KimiToolset.handle jsonParse ts (calls.get ⟨i, hi⟩)) := by
  refine ⟨?_, ?_, ?_, ?_⟩
  · intro hnone
    simp [KimiToolset.handle, hnone]
  · intro tool e hsome hparse
    simp [KimiToolset.handle, hsome, hparse]
  · intro tool args exc hsome hparse hrun
    simp [KimiToolset.handle, hsome, hparse, hrun]
  · intro calls i hi
    simp

/-- C8 witness: against the demo toolset, a call to an unknown tool gets
NotFound, a call with unparsable arguments gets ParseError, and a call
whose body raises gets a task resolving to RuntimeError — each outcome
confined to its own call. -/
theorem toolset_handle_isolates_witness :
    KimiToolset.handle demoParse demoToolset ⟨"c1", ⟨"nope", some "{}"⟩, none⟩
      = .immediate ⟨"c1", .notFound "nope"⟩
    ∧ KimiToolset.handle demoParse demoToolset ⟨"c2", ⟨"boom", some "not json"⟩, none⟩
      = .immediate ⟨"c2", .parseError "not json"⟩
    ∧ KimiToolset.handle demoParse demoToolset ⟨"c3", ⟨"boom", none⟩, none⟩
      = .task ⟨"c3", .runtimeError "division by zero"⟩ := by
  refine ⟨?_, ?_, ?_⟩
  · exact (toolset_handle_isolates demoParse demoToolset _).1 (by simp [demoToolset, dictGet])
  · exact (toolset_handle_isolates demoParse demoToolset _).2.1 demoFaultyTool "not json"
      (by simp [demoToolset, dictGet]) (by simp [demoParse, argsOrEmptyObj])
  · exact (toolset_handle_isolates demoParse demoToolset _).2.2.1 demoFaultyTool (.obj .nil)
      ⟨"division by zero"⟩ (by simp [demoToolset, dictGet])
      (by simp [demoParse, argsOrEmptyObj]) rfl

/-! ## Theorems: wire claims -/

/-- C6: encoding any `WireMessage` variant to its `{type, payload}`
envelope with `from_wire_message` and decoding back with
`to_wire_message` yields the original message; in particular a
`StatusUpdate` with `context_usage = 0.42` round-trips to an equal
`StatusUpdate`. -/
theorem envelope_roundtrip (m : WireMessage) :
    (WireMessageEnvelope.from_wire_message m).to_wire_message = .ok m
    ∧ (WireMessageEnvelope.from_wire_message
        (.ev (.statusUpdate (some (42/100)) none none))).to_wire_message
      = .ok (.ev (.statusUpdate (some (42/100)) none none)) := by
  constructor
  · cases m with
    | ev e => exact decodeByTag_encode e
    | req r =>
      show decodeByTag "ApprovalRequest" (encodeApprovalRequest r) = Except.ok (.req r)
      rw [decodeByTag]
      simp [decode_encode_approvalRequest]
  · exact decodeByTag_encode (.statusUpdate (some (42/100)) none none)

/-- C7: decoding an envelope whose tag is outside the fixed registry fails
with `UnknownVariant`, and an envelope with a registered tag never
produces that error (its decode either succeeds or fails with a payload
validation error) — the failure is confined to the single decode
operation of the offending envelope. -/
theorem decode_unknown_variant (env : WireMessageEnvelope) :
    (env.type ∉ registeredTags →
      env.to_wire_message = .error (.unknownVariant env.type))
    ∧ (env.type ∈ registeredTags →
      ∀ t, env.to_wire_message ≠ .error (.unknownVariant t)) := by
  rcases env with ⟨tag, payload⟩
  constructor
  · intro h
    simp [registeredTags] at h
    obtain ⟨h1, h2, h3, h4, h5, h6, h7, h8, h9, h10, h11, h12, h13⟩ := h
    show decodeByTag tag payload = _
    rw [decodeByTag.eq_def]
    split <;> simp_all
  · intro h t
    show decodeByTag tag payload ≠ _
    simp only [registeredTags, List.mem_cons, List.mem_singleton, List.not_mem_nil,
      or_false] at h
    rcases h with rfl | rfl | rfl | rfl | rfl | rfl | rfl | rfl | rfl | rfl | rfl | rfl | rfl
    all_goals rw [decodeByTag]
    all_goals repeat' split
    all_goals simp

/-- C7 witness: an envelope tagged `"Bogus"` fails with `UnknownVariant`,
while the registered `"CompactionEnd"` envelope decodes without an
`UnknownVariant` error. -/
theorem decode_unknown_variant_witness :
    WireMessageEnvelope.to_wire_message ⟨"Bogus", .nil⟩
      = .error (.unknownVariant "Bogus")
    ∧ ∀ t, WireMessageEnvelope.to_wire_message ⟨"CompactionEnd", .nil⟩
      ≠ .error (.unknownVariant t) := by
  constructor
  · exact (decode_unknown_variant ⟨"Bogus", .nil⟩).1 (by decide)
  · exact (decode_unknown_variant ⟨"CompactionEnd", .nil⟩).2 (by decide)

/-! ## Theorems: approval resolution claim -/

/-- C9: resolving a fresh `ApprovalRequest` succeeds and records the
response; afterwards `resolved` is true, `wait` returns the first
response, and a second `resolve` with any response is rejected with
`InvalidStateError`, leaving the recorded response untouched. -/
theorem approval_resolve_once (r₁ r₂ : ApprovalResponse) :
    ApprovalRequest.resolve ⟨none⟩ r₁ = .ok ⟨some r₁⟩
    ∧ ApprovalRequest.resolved ⟨some r₁⟩ = true
    ∧ ApprovalRequest.wait ⟨some r₁⟩ = some r₁
    ∧ ApprovalRequest.resolve ⟨some r₁⟩ r₂ = .error .invalidState := by
  exact ⟨rfl, rfl, rfl, rfl⟩

end KimiSpec
